import Mathlib

/-!
# EIWYG live data pipeline — verification of the frontend core

Shallow embedding of the live-data-pipeline core of the EIWYG dashboard
frontend (`src/frontend/js/view.js`, `src/frontend/js/editor.js`,
`src/frontend/js/load.js`), together with proofs about it:

* the plot widget's time-series buffer (`plot.update`, `_plotCompact`,
  `_plotFetchHistory` in `load.js`),
* the viewer session's reconnect backoff (`_scheduleReconnect`,
  `connectWebSocket` in `view.js`),
* the viewer's PV-update demultiplexer (`handlePVUpdate` in `view.js`),
* the editor's subscription registry (`_syncPVSubscriptions` in `editor.js`).

JavaScript numbers are modelled by `ℚ` extended with the three non-finite
values `NaN`, `Infinity`, `-Infinity` (`JF`); machine-float rounding is not
modelled.  Mutable per-widget state becomes explicit state passing.
-/

namespace EIWYG

set_option maxRecDepth 8000

/-- A JavaScript float as seen by the plot code: a finite value (modelled
exactly as a rational), `NaN`, `Infinity` or `-Infinity`. -/
inductive JF : Type
  | fin (q : ℚ)
  | nan
  | inf
  | ninf
  deriving DecidableEq, Repr

namespace JF

/-- JavaScript `isNaN` on an already-numeric value. -/
def isNaN : JF → Bool
  | nan => true
  | _ => false

/-- JavaScript `+` on numbers (only the cases the plot code can reach). -/
def add : JF → JF → JF
  | fin a, fin b => fin (a + b)
  | nan, _ => nan
  | _, nan => nan
  | inf, ninf => nan
  | ninf, inf => nan
  | inf, _ => inf
  | _, inf => inf
  | ninf, _ => ninf
  | _, ninf => ninf

/-- JavaScript division of a value by a (positive) count, as used by the
bin-averaging step `vSum / count` of `_plotCompact`. -/
def divNat : JF → ℕ → JF
  | fin a, n => fin (a / (n : ℚ))
  | nan, _ => nan
  | inf, _ => inf
  | ninf, _ => ninf

end JF

/-- One sample of a plot series: `{t: timestamp_ms, v: value}`
(`load.js` line 1479).  Timestamps produced by the code are always finite,
values may be any JavaScript float. -/
structure Point : Type where
  t : ℚ
  v : JF
  deriving DecidableEq, Repr

/-- Ordering of two samples by timestamp. -/
def ptLe (a b : Point) : Prop := a.t ≤ b.t

instance : IsTrans Point ptLe := ⟨fun _ _ _ h h' => le_trans h h'⟩

instance : DecidableRel ptLe := fun a b =>
  inferInstanceAs (Decidable (a.t ≤ b.t))

/-- Executable check that consecutive timestamps are non-decreasing. -/
def sortedB : List Point → Bool
  | [] => true
  | [_] => true
  | p :: q :: rest => decide (ptLe p q) && sortedB (q :: rest)

/-- The time-ordering invariant of a series: consecutive timestamps are
non-decreasing (duplicates at equal `t` are permitted by the data model). -/
def ptsSorted (l : List Point) : Prop :=
  sortedB l = true

instance : DecidablePred ptsSorted := fun l =>
  inferInstanceAs (Decidable (sortedB l = true))

/-- The mutable per-plot-widget state stored on the container as
`container._plotState` (`load.js` lines 1477-1489), restricted to the
fields the data pipeline touches (chart/styling fields omitted). -/
structure PlotState : Type where
  data : List Point
  historyLoaded : Bool
  maxPoints : ℕ
  timeWindow : ℚ
  pv : Option String
  deriving DecidableEq, Repr

/-- The slice of a plot widget's configuration that `plot.update` reads:
the configured PV (`widget.pv`, `none` when absent/empty hence falsy) and
the `maxPoints` / `timeWindow` config values after defaulting
(`cfg(widget,'maxPoints',500)`, `cfg(widget,'timeWindow',3600)*1000`). -/
structure PlotWidgetCfg : Type where
  pv : Option String
  maxPoints : ℕ
  timeWindowMs : ℚ
  deriving DecidableEq, Repr

/-- An incoming `pv_update` payload as the plot widget sees it:
`pvData.timestamp` (unix seconds; `none` models a missing/`null` field,
`some 0` a zero field — both falsy in JS) and `pvData.value` after
`parseFloat` (which is the identity on numeric values). -/
structure PvData : Type where
  timestamp : Option ℚ
  value : JF
  deriving DecidableEq, Repr

/-- Timestamp selection `var ts = (pvData.timestamp || Date.now() / 1000) * 1000`
(`load.js` line 1522).  `now` is `Date.now()` in milliseconds; a falsy
timestamp (missing, `null` or `0`) falls back to the client clock. -/
def updateTs (timestamp : Option ℚ) (now : ℚ) : ℚ :=
  (match timestamp with
    | none => now / 1000
    | some q => if q = 0 then now / 1000 else q) * 1000

/-- The inner loop of `_plotCompact` (`load.js` lines 1605-1619): walk the
points in order, accumulating `(tSum, vSum, count)` for the current bin
`[binStart, binStart + binWidth)`; when a point falls past the current bin
(and the bin is non-empty), emit the averaged point and advance `binStart`
by whole multiples of `binWidth` until the point fits.  The number of
multiples skipped by the source's `while (p.t >= binStart + binWidth)
binStart += binWidth` loop is `⌊(p.t - binStart) / binWidth⌋`. -/
def compactLoop (bw : ℚ) : List Point → ℚ → ℚ → JF → ℕ → List Point
  | [], _, tSum, vSum, count =>
      if 0 < count then [⟨tSum / (count : ℚ), vSum.divNat count⟩] else []
  | p :: rest, binStart, tSum, vSum, count =>
      if 0 < count ∧ binStart + bw ≤ p.t then
        ⟨tSum / (count : ℚ), vSum.divNat count⟩ ::
          compactLoop bw rest (binStart + bw * (⌊(p.t - binStart) / bw⌋ : ℤ))
            p.t p.v 1
      else
        compactLoop bw rest binStart (tSum + p.t) (vSum.add p.v) (count + 1)

/-- Compaction `_plotCompact` (`load.js` lines 1590-1622): bin-average `state.data`
down towards `state.maxPoints` bins.  No-op when the buffer already has at
most `maxPoints` points or when the bin width is not positive (all points
at one timestamp, or `maxPoints = 0` making `binWidth = x / 0 = 0`). -/
def plotCompact (st : PlotState) : PlotState :=
  match st.data with
  | [] => st
  | p0 :: rest =>
      if (p0 :: rest).length ≤ st.maxPoints then st
      else
        let tMin := p0.t
        let tMax := ((p0 :: rest).getLast (List.cons_ne_nil p0 rest)).t
        let bw := (tMax - tMin) / (st.maxPoints : ℚ)
        if bw ≤ 0 then st
        else { st with data := compactLoop bw (p0 :: rest) tMin 0 (JF.fin 0) 0 }

/-- The compaction trigger in `plot.update` (`load.js` lines 1529-1531):
`if (state.data.length > state.maxPoints * 1.5) _plotCompact(state)`,
stated over integers as `2·len > 3·maxPoints`. -/
def compactIfNeeded (st : PlotState) : PlotState :=
  if 3 * st.maxPoints < 2 * st.data.length then plotCompact st else st

/-- The pruning loop in `plot.update` (`load.js` lines 1534-1537):
`while (data.length > 0 && data[0].t < cutoff) data.shift()` with
`cutoff = Date.now() - state.timeWindow`. -/
def pruneExpired (st : PlotState) (now : ℚ) : PlotState :=
  { st with data := st.data.dropWhile (fun p => decide (p.t < now - st.timeWindow)) }

/-- The config-refresh prefix of `plot.update` (`load.js` lines
1504-1510): the state's `maxPoints` and `timeWindow` are re-read from the
widget config on every update. -/
def refreshCfg (st : PlotState) (w : PlotWidgetCfg) : PlotState :=
  { st with maxPoints := w.maxPoints, timeWindow := w.timeWindowMs }

/-- Update handler `plot.update` (`load.js` lines 1499-1540), data path only (chart
redrawing omitted).  Returns the new state together with the PV of a
history fetch started by the PV-change branch, if any. -/
def plotUpdate (st : PlotState) (w : PlotWidgetCfg) (d : PvData) (now : ℚ) :
    PlotState × Option String :=
  let st1 := refreshCfg st w
  -- `if (widget.pv && widget.pv !== state.pv)`: reset and reload history
  if w.pv ≠ none ∧ w.pv ≠ st1.pv then
    ({ st1 with pv := w.pv, data := [], historyLoaded := false }, w.pv)
  else
    let ts := updateTs d.timestamp now
    -- `var val = parseFloat(pvData.value); if (isNaN(val)) return;`
    if d.value.isNaN then (st1, none)
    else
      let st2 := { st1 with data := st1.data ++ [⟨ts, d.value⟩] }
      (pruneExpired (compactIfNeeded st2) now, none)

/-- The merge step of `_plotFetchHistory` (`load.js` lines 1577-1581):
keep all of `hist`, then the live points with
`hist.length === 0 || p.t > hist[hist.length-1].t`. -/
def mergeHistory (hist live : List Point) : List Point :=
  hist ++ live.filter (fun p =>
    match hist.getLast? with
    | none => true
    | some q => decide (q.t < p.t))

/-- The response handler of `_plotFetchHistory` (`load.js` lines
1569-1584).  `fetchPv` is the PV the fetch was issued for (`widget.pv` at
request time); `resp` is `none` when the response carries no `data` field
(or when the fetch failed).  Note that the handler never reads `fetchPv`:
it only checks that the plot state still exists, then merges. -/
def applyFetchResponse (st : PlotState) (_fetchPv : String)
    (resp : Option (List Point)) : PlotState :=
  match resp with
  | none => st
  | some raw =>
      -- `json.data.map(p => ({t: p.t * 1000, v: p.v}))`
      let hist := raw.map (fun p => Point.mk (p.t * 1000) p.v)
      { st with data := mergeHistory hist st.data, historyLoaded := true }

/-- Executable check that a series spans a positive time range: its first
point is strictly earlier than its last (so the compaction bin width is
positive). -/
def posSpanB : List Point → Bool
  | [] => false
  | p :: rest =>
      match rest.getLast? with
      | none => false
      | some q => decide (p.t < q.t)

/-- The history-merge rule as the spec words it: when history is empty the
result is live unchanged; otherwise all of history followed by exactly the
live points strictly later than the last history point.  Used to compare
the source's merge against the spec's description. -/
def mergeSpec : List Point → List Point → List Point
  | [], live => live
  | h :: hs, live =>
      (h :: hs) ++ live.filter
        (fun p => decide (((h :: hs).getLast (List.cons_ne_nil h hs)).t < p.t))

/-- Bin index (relative to a bin start `bs`) of the last point of a
series: an upper bound used to count the bins `compactLoop` can emit. -/
def lastFloorBnd (bw bs : ℚ) (l : List Point) : ℤ :=
  match l.getLast? with
  | none => 0
  | some q => ⌊(q.t - bs) / bw⌋

/-! ## Viewer connection session (`view.js`) -/

/-- The reconnect bookkeeping of `DashboardViewer`: `this.reconnectDelay`
(initially 1000, `view.js` line 18) and whether a reconnect timer is
pending (`this.reconnectTimer !== null`). -/
structure ViewerConn : Type where
  reconnectDelay : ℕ
  timerPending : Bool
  deriving DecidableEq, Repr

/-- Transport events driving the reconnect state. -/
inductive ConnEvent : Type
  | wsClosed
  | timerFired
  | wsOpened
  deriving DecidableEq, Repr

/-- Cap `this.maxReconnectDelay = 30000` (`view.js` line 19). -/
def maxReconnectDelay : ℕ := 30000

/-- One transition of the reconnect state machine:
`wsClosed` is `ws.onclose` calling `_scheduleReconnect` (`view.js` lines
361-373: return early if a timer is pending, otherwise schedule and set
`reconnectDelay = min(reconnectDelay * 2, maxReconnectDelay)`);
`timerFired` is the timer body clearing `this.reconnectTimer`
(line 367); `wsOpened` is `ws.onopen` resetting the delay to 1000
(line 317). -/
def connStep (s : ViewerConn) : ConnEvent → ViewerConn
  | .wsClosed =>
      if s.timerPending then s
      else { reconnectDelay := min (s.reconnectDelay * 2) maxReconnectDelay,
             timerPending := true }
  | .timerFired => { s with timerPending := false }
  | .wsOpened => { s with reconnectDelay := 1000 }

/-- The state built by the `DashboardViewer` constructor. -/
def connInit : ViewerConn := ⟨1000, false⟩

/-- The reconnect state after an arbitrary run of transport events. -/
def connRun (evs : List ConnEvent) : ViewerConn :=
  evs.foldl connStep connInit

/-! ## Viewer PV-update demultiplexer (`view.js` `handlePVUpdate`) -/

/-- A registered widget as the demultiplexer sees it: `resolvedPv` is
`resolveVariables(widget.pv, this.variables)` (`none` when `widget.pv` is
falsy), `subscribePVs` is the renderer's `getSubscribePVs(resolvedWidget)`
when that method exists (composite widgets), `none` otherwise.
`lastDelivered` abstracts the widget's rendered state: it records the last
`(pvName, pvData)` its update handler was invoked with. -/
structure VWidget : Type where
  wid : String
  resolvedPv : Option String
  subscribePVs : Option (List String)
  lastDelivered : Option (String × PvData)
  deriving DecidableEq, Repr

/-- The widget's interest predicate (`view.js` lines 393-399): membership
of the update's PV in `getSubscribePVs(...)` when the renderer defines it,
otherwise direct equality with the widget's single resolved PV. -/
def interestedIn (w : VWidget) (pvName : String) : Bool :=
  match w.subscribePVs with
  | some pvs => pvs.contains pvName
  | none => w.resolvedPv == some pvName

/-- Routing loop of `handlePVUpdate` (`view.js` lines 378-434): every
registered widget whose interest predicate matches has its update handler
invoked with the update; all others are skipped (`continue`). -/
def handlePVUpdate : List VWidget → String → PvData → List VWidget
  | [], _, _ => []
  | w :: rest, pvName, d =>
      (if interestedIn w pvName then { w with lastDelivered := some (pvName, d) }
       else w) :: handlePVUpdate rest pvName d

/-! ## Editor subscription registry (`editor.js` `_syncPVSubscriptions`) -/

/-- Outbound subscription messages (`{type: 'subscribe'|'unsubscribe',
pvs: [...]}`); the `pvs` array is built from a JS `Set`, modelled as a
`Finset`. -/
inductive WsMsg : Type
  | subscribe (pvs : Finset String)
  | unsubscribe (pvs : Finset String)
  deriving DecidableEq

/-- The editor session state touched by the subscription registry:
`this.widgets` (id → widget, each contributing its `pv` when truthy),
`this.subscribedPVs`, and whether the WebSocket is currently `OPEN`. -/
structure ESession : Type where
  widgets : List (String × Option String)
  subscribedPVs : Finset String
  wsOpen : Bool
  deriving DecidableEq

/-- The union of registered widgets' PV names, per
`Object.values(this.widgets).forEach(w => { if (w.pv) currentPVs.add(w.pv) })`
(`editor.js` lines 166-169). -/
def currentPVs (widgets : List (String × Option String)) : Finset String :=
  widgets.foldr
    (fun w acc => match w.2 with | some pv => insert pv acc | none => acc) ∅

/-- Sync step `_syncPVSubscriptions` (`editor.js` lines 165-184): diff the current
PV union against `this.subscribedPVs`, send an unsubscribe for the stale
delta and a subscribe for the new delta (each only when non-empty and the
socket is open), then record the current union as sent. -/
def syncPVSubscriptions (s : ESession) : ESession × List WsMsg :=
  let current := currentPVs s.widgets
  let toUnsub := s.subscribedPVs \ current
  let unsubMsgs := if toUnsub ≠ ∅ ∧ s.wsOpen then [WsMsg.unsubscribe toUnsub] else []
  let toSub := current \ s.subscribedPVs
  let subMsgs := if toSub ≠ ∅ ∧ s.wsOpen then [WsMsg.subscribe toSub] else []
  ({ s with subscribedPVs := current }, unsubMsgs ++ subMsgs)

/-- Registry mutations: `addWidget` / `updateWidgetConfig` with a `pv`
update (both store a widget under its id) and `removeWidget`.  Each is
followed by `_syncPVSubscriptions()` in the source. -/
inductive RegOp : Type
  | register (wid : String) (pv : Option String)
  | unregister (wid : String)
  deriving DecidableEq, Repr

/-- Effect of a registry mutation on `this.widgets` (a JS object keyed by
widget id: storing replaces any widget with the same id, deleting removes
it; only the id → pv mapping matters for subscriptions). -/
def applyRegOp (widgets : List (String × Option String)) :
    RegOp → List (String × Option String)
  | .register wid pv => widgets.filter (fun e => decide (e.1 ≠ wid)) ++ [(wid, pv)]
  | .unregister wid => widgets.filter (fun e => decide (e.1 ≠ wid))

/-- A registry trace: the widget map, the recorded sent set
(`this.subscribedPVs`), and the server-side subscription set obtained by
cumulatively applying each sync's deltas (remove `toUnsubscribe`, add
`toSubscribe`). -/
structure RegTrace : Type where
  widgets : List (String × Option String)
  sent : Finset String
  server : Finset String
  deriving DecidableEq

/-- One registry mutation followed by its `_syncPVSubscriptions()` call,
with the computed deltas applied to the server-side set. -/
def regStep (st : RegTrace) (op : RegOp) : RegTrace :=
  let widgets := applyRegOp st.widgets op
  let current := currentPVs widgets
  let toUnsub := st.sent \ current
  let toSub := current \ st.sent
  { widgets := widgets, sent := current,
    server := (st.server \ toUnsub) ∪ toSub }

/-- A whole session: start with no widgets, nothing sent, no server-side
subscriptions, and run any sequence of mutations, each followed by a sync. -/
def regRun (ops : List RegOp) : RegTrace :=
  ops.foldl regStep ⟨[], ∅, ∅⟩

/-! ## Concrete instances used by the claims -/

/-- A plot state with 4 points at t = 0,1,2,3 and `maxPoints = 2`:
4 > 2 · 1.5, so the compaction trigger fires. -/
def exCompactSmall : PlotState :=
  ⟨[⟨0, JF.fin 0⟩, ⟨1, JF.fin 0⟩, ⟨2, JF.fin 0⟩, ⟨3, JF.fin 0⟩],
    false, 2, 3600000, none⟩

/-- Timestamps for the 760-point scenario: hits every 20 ms bin of
`[0, 10000)` at least once and ends exactly at t = 10000. -/
def mkT760 (i : ℕ) : ℚ :=
  if i < 500 then 20 * i else if i < 759 then 9990 else 10000

/-- A plot state matching the spec's example scenario: `maxPoints = 500`
and 760 points spanning t = [0, 10000] ms (sorted). -/
def ex760 : PlotState :=
  ⟨(List.range 760).map (fun i => ⟨mkT760 i, JF.fin 0⟩),
    false, 500, 3600000, none⟩

/-- An empty plot series about to receive an update. -/
def exEmptyPlot : PlotState := ⟨[], false, 500, 3600000, none⟩

/-- An empty plot series with a 2-second window (used to evaluate the
whole update pipeline on concrete inputs). -/
def exSmallWin : PlotState := ⟨[], false, 500, 2000, none⟩

/-- A plot widget whose PV has just changed to `PV:B` (series reset, a
history fetch for `PV:B` outstanding) while an older fetch for `PV:A` is
still in flight. -/
def exStalePlot : PlotState := ⟨[], false, 500, 3600000, some "PV:B"⟩

/-- An editor session right after a reconnect: one widget on
`MOTOR1:RBV`, and `this.subscribedPVs` still holding the set sent over
the previous (now dead) connection. -/
def exEditorReconnect : ESession :=
  ⟨[("widget-1", some "MOTOR1:RBV")], {"MOTOR1:RBV"}, true⟩

/-- A small history series (t = 1000, 2000 ms, sorted). -/
def exHist : List Point := [⟨1000, JF.fin 1⟩, ⟨2000, JF.fin 2⟩]

/-- Live points collected while the fetch was in flight (t = 1500, 2500):
one overlaps the history, one extends past it. -/
def exLive : List Point := [⟨1500, JF.fin 3⟩, ⟨2500, JF.fin 4⟩]

/-! ## Theorems -/

theorem sortedB_iff_chain :
    ∀ l : List Point, sortedB l = true ↔ List.Chain' ptLe l
  | [] => by simp [sortedB]
  | [p] => by simp [sortedB]
  | p :: q :: rest => by
    rw [sortedB, List.chain'_cons, Bool.and_eq_true, decide_eq_true_iff,
      sortedB_iff_chain (q :: rest), and_comm]

theorem ptsSorted_iff_pairwise (l : List Point) :
    ptsSorted l ↔ List.Pairwise ptLe l := by
  rw [ptsSorted, sortedB_iff_chain, List.chain'_iff_pairwise]


theorem compactLoop_cons_zero (bw : ℚ) (p : Point) (rest : List Point)
    (bs ts : ℚ) (vs : JF) :
    compactLoop bw (p :: rest) bs ts vs 0 =
      compactLoop bw rest bs (ts + p.t) (vs.add p.v) 1 := by
  simp [compactLoop]

theorem compactLoop_sorted (bw : ℚ) (hbw : 0 < bw) (l : List Point) :
    ∀ (bs ts : ℚ) (vs : JF) (c : ℕ),
      List.Pairwise ptLe l → (∀ q ∈ l, bs ≤ q.t) → 0 < c →
      bs * (c : ℚ) ≤ ts → ts < (bs + bw) * (c : ℚ) →
      List.Pairwise ptLe (compactLoop bw l bs ts vs c) ∧
        ∀ x ∈ compactLoop bw l bs ts vs c, bs ≤ x.t := by
  induction l with
  | nil =>
    intro bs ts vs c _ _ hc hlo hhi
    have hc0 : (0 : ℚ) < (c : ℚ) := by exact_mod_cast hc
    simp only [compactLoop, if_pos hc]
    refine ⟨List.pairwise_singleton _ _, ?_⟩
    intro x hx
    simp only [List.mem_singleton] at hx
    subst hx
    exact (le_div_iff hc0).mpr hlo
  | cons p rest ih =>
    intro bs ts vs c hpw hlb hc hlo hhi
    have hc0 : (0 : ℚ) < (c : ℚ) := by exact_mod_cast hc
    obtain ⟨hhead, htail⟩ := List.pairwise_cons.mp hpw
    by_cases hflush : bs + bw ≤ p.t
    · have hm1 : (1 : ℤ) ≤ ⌊(p.t - bs) / bw⌋ := by
        refine Int.le_floor.mpr ?_
        rw [Int.cast_one, le_div_iff hbw, one_mul]
        linarith
      have hmq : (1 : ℚ) ≤ ((⌊(p.t - bs) / bw⌋ : ℤ) : ℚ) := by exact_mod_cast hm1
      have hfl : ((⌊(p.t - bs) / bw⌋ : ℤ) : ℚ) ≤ (p.t - bs) / bw := Int.floor_le _
      have hbsm : bs + bw * ((⌊(p.t - bs) / bw⌋ : ℤ) : ℚ) ≤ p.t := by
        have h1 := (le_div_iff hbw).mp hfl
        have h2 : ((⌊(p.t - bs) / bw⌋ : ℤ) : ℚ) * bw =
            bw * ((⌊(p.t - bs) / bw⌋ : ℤ) : ℚ) := mul_comm _ _
        linarith
      have hptlt : p.t < bs + bw * ((⌊(p.t - bs) / bw⌋ : ℤ) : ℚ) + bw := by
        have h2 : (p.t - bs) / bw < ((⌊(p.t - bs) / bw⌋ : ℤ) : ℚ) + 1 :=
          Int.lt_floor_add_one _
        have h3 := (div_lt_iff hbw).mp h2
        nlinarith
      have hlbrest : ∀ q ∈ rest,
          bs + bw * ((⌊(p.t - bs) / bw⌋ : ℤ) : ℚ) ≤ q.t :=
        fun q hq => le_trans hbsm (hhead q hq)
      obtain ⟨ihpw, ihlb⟩ :=
        ih (bs + bw * ((⌊(p.t - bs) / bw⌋ : ℤ) : ℚ)) p.t p.v 1 htail hlbrest
          Nat.one_pos (by push_cast; linarith) (by push_cast; linarith)
      have hbwm : bw ≤ bw * ((⌊(p.t - bs) / bw⌋ : ℤ) : ℚ) :=
        le_mul_of_one_le_right hbw.le hmq
      have havg : ts / (c : ℚ) < bs + bw := (div_lt_iff hc0).mpr hhi
      simp only [compactLoop, if_pos (And.intro hc hflush)]
      constructor
      · rw [List.pairwise_cons]
        refine ⟨?_, ihpw⟩
        intro x hx
        have hxlb := ihlb x hx
        show (⟨ts / (c : ℚ), vs.divNat c⟩ : Point).t ≤ x.t
        simp only
        linarith
      · intro x hx
        rcases List.mem_cons.mp hx with hx | hx
        · subst hx
          exact (le_div_iff hc0).mpr hlo
        · have hxlb := ihlb x hx
          linarith [hbw.le]
    · have hpt : p.t < bs + bw := lt_of_not_le hflush
      have hcond : ¬(0 < c ∧ bs + bw ≤ p.t) := fun h => hflush h.2
      simp only [compactLoop, if_neg hcond]
      refine ih bs (ts + p.t) (vs.add p.v) (c + 1) htail
        (fun q hq => hlb q (List.mem_cons_of_mem _ hq)) (Nat.succ_pos c) ?_ ?_
      · have hp := hlb p (List.mem_cons_self _ _)
        push_cast
        nlinarith
      · push_cast
        nlinarith

theorem compactLoop_length (bw : ℚ) (hbw : 0 < bw) (l : List Point) :
    ∀ (bs ts : ℚ) (vs : JF) (c : ℕ),
      List.Pairwise ptLe l → (∀ q ∈ l, bs ≤ q.t) → 0 < c →
      ((compactLoop bw l bs ts vs c).length : ℤ) ≤ 1 + lastFloorBnd bw bs l := by
  induction l with
  | nil =>
    intro bs ts vs c _ _ hc
    simp [compactLoop, if_pos hc, lastFloorBnd]
  | cons p rest ih =>
    intro bs ts vs c hpw hlb hc
    obtain ⟨hhead, htail⟩ := List.pairwise_cons.mp hpw
    by_cases hflush : bs + bw ≤ p.t
    · have hm1 : (1 : ℤ) ≤ ⌊(p.t - bs) / bw⌋ := by
        refine Int.le_floor.mpr ?_
        rw [Int.cast_one, le_div_iff hbw, one_mul]
        linarith
      have hfl : ((⌊(p.t - bs) / bw⌋ : ℤ) : ℚ) ≤ (p.t - bs) / bw := Int.floor_le _
      have hbsm : bs + bw * ((⌊(p.t - bs) / bw⌋ : ℤ) : ℚ) ≤ p.t := by
        have h1 := (le_div_iff hbw).mp hfl
        have h2 : ((⌊(p.t - bs) / bw⌋ : ℤ) : ℚ) * bw =
            bw * ((⌊(p.t - bs) / bw⌋ : ℤ) : ℚ) := mul_comm _ _
        linarith
      simp only [compactLoop, if_pos (And.intro hc hflush), List.length_cons]
      rcases rest with _ | ⟨r, rs⟩
      · simp only [compactLoop, if_pos Nat.one_pos, List.length_singleton,
          lastFloorBnd, List.getLast?_singleton]
        push_cast
        omega
      · have hrec := ih (bs + bw * ((⌊(p.t - bs) / bw⌋ : ℤ) : ℚ)) p.t p.v 1
          htail (fun q hq => le_trans hbsm (hhead q hq)) Nat.one_pos
        obtain ⟨q, hq⟩ : ∃ q, (r :: rs).getLast? = some q :=
          ⟨(r :: rs).getLast (List.cons_ne_nil r rs),
            List.getLast?_eq_getLast _ _⟩
        have hshift : (q.t - bs) / bw =
            (q.t - (bs + bw * ((⌊(p.t - bs) / bw⌋ : ℤ) : ℚ))) / bw +
              ((⌊(p.t - bs) / bw⌋ : ℤ) : ℚ) := by
          field_simp
          ring
        have hfloor : ⌊(q.t - bs) / bw⌋ =
            ⌊(q.t - (bs + bw * ((⌊(p.t - bs) / bw⌋ : ℤ) : ℚ))) / bw⌋ +
              ⌊(p.t - bs) / bw⌋ := by
          rw [hshift, Int.floor_add_int]
        rw [lastFloorBnd] at hrec ⊢
        simp only [hq, List.getLast?_cons_cons] at hrec ⊢
        push_cast
        omega
    · have hcond : ¬(0 < c ∧ bs + bw ≤ p.t) := fun h => hflush h.2
      simp only [compactLoop, if_neg hcond]
      rcases rest with _ | ⟨r, rs⟩
      · have hge : (0 : ℤ) ≤ ⌊(p.t - bs) / bw⌋ :=
          Int.floor_nonneg.mpr
            (div_nonneg (sub_nonneg.mpr (hlb p (List.mem_cons_self _ _))) hbw.le)
        simp only [compactLoop, if_pos (Nat.succ_pos c), List.length_singleton,
          lastFloorBnd, List.getLast?_singleton]
        omega
      · have hrec := ih bs (ts + p.t) (vs.add p.v) (c + 1) htail
          (fun q hq => hlb q (List.mem_cons_of_mem _ hq)) (Nat.succ_pos c)
        rw [lastFloorBnd] at hrec ⊢
        simp only [List.getLast?_cons_cons]
        exact hrec


theorem plotCompact_sorted (st : PlotState) (hs : ptsSorted st.data) :
    ptsSorted (plotCompact st).data := by
  rw [ptsSorted_iff_pairwise] at hs
  rw [ptsSorted_iff_pairwise]
  rcases hd : st.data with _ | ⟨p0, rest⟩
  · simp [plotCompact, hd]
  · rw [hd] at hs
    obtain ⟨hhead, htail⟩ := List.pairwise_cons.mp hs
    simp only [plotCompact, hd]
    split_ifs with hlen hbw0
    · simpa [hd] using hs
    · simpa [hd] using hs
    · have hbw : 0 <
          ((((p0 :: rest).getLast (List.cons_ne_nil p0 rest)).t - p0.t) /
            (st.maxPoints : ℚ)) := lt_of_not_le hbw0
      simp only [compactLoop_cons_zero]
      refine (compactLoop_sorted _ hbw rest p0.t (0 + p0.t) _ 1 htail
        (fun q hq => hhead q hq) Nat.one_pos ?_ ?_).1
      · push_cast
        linarith
      · push_cast
        linarith

theorem plotCompact_length (st : PlotState) (hs : ptsSorted st.data)
    (hmax : 0 < st.maxPoints) (hspan : posSpanB st.data = true) :
    (plotCompact st).data.length ≤ st.maxPoints + 1 := by
  rw [ptsSorted_iff_pairwise] at hs
  rcases hd : st.data with _ | ⟨p0, rest⟩
  · simp [plotCompact, hd]
  · rw [hd] at hs hspan
    obtain ⟨hhead, htail⟩ := List.pairwise_cons.mp hs
    rcases hq : rest.getLast? with _ | q
    · rw [posSpanB, hq] at hspan
      exact absurd hspan (by simp)
    · rw [posSpanB, hq] at hspan
      have hlt : p0.t < q.t := of_decide_eq_true hspan
      have hrne : rest ≠ [] := by
        intro h
        rw [h] at hq
        simp at hq
      have hlast : (p0 :: rest).getLast (List.cons_ne_nil p0 rest) = q := by
        rw [List.getLast_cons hrne]
        have h2 := List.getLast?_eq_getLast rest hrne
        rw [h2] at hq
        exact Option.some_inj.mp hq
      have hmq : (0 : ℚ) < (st.maxPoints : ℚ) := by exact_mod_cast hmax
      have hbwpos : 0 <
          (((p0 :: rest).getLast (List.cons_ne_nil p0 rest)).t - p0.t) /
            (st.maxPoints : ℚ) := by
        rw [hlast]
        exact div_pos (by linarith) hmq
      simp only [plotCompact, hd]
      split_ifs with hlen hbw0
      · rw [hd]
        omega
      · exact absurd hbw0 (not_le.mpr hbwpos)
      · show (compactLoop _ (p0 :: rest) p0.t 0 (JF.fin 0) 0).length ≤
          st.maxPoints + 1
        rw [compactLoop_cons_zero]
        have hlen2 := compactLoop_length _ hbwpos rest p0.t (0 + p0.t)
          ((JF.fin 0).add p0.v) 1 htail (fun x hx => hhead x hx) Nat.one_pos
        rw [lastFloorBnd] at hlen2
        simp only [hq] at hlen2
        have hD0 : q.t - p0.t ≠ 0 := ne_of_gt (by linarith)
        have hDq : (q.t - p0.t) /
            ((((p0 :: rest).getLast (List.cons_ne_nil p0 rest)).t - p0.t) /
              (st.maxPoints : ℚ)) = (st.maxPoints : ℚ) := by
          rw [hlast]
          field_simp
        rw [hDq] at hlen2
        rw [Int.floor_natCast] at hlen2
        omega


theorem dropWhile_cutoff_le (cut : ℚ) :
    ∀ l : List Point, List.Pairwise ptLe l →
      ∀ p ∈ l.dropWhile (fun p => decide (p.t < cut)), cut ≤ p.t := by
  intro l
  induction l with
  | nil =>
    intro _ p hp
    simp [List.dropWhile] at hp
  | cons a l ih =>
    intro hpw p hp
    obtain ⟨hhead, htail⟩ := List.pairwise_cons.mp hpw
    rw [List.dropWhile_cons] at hp
    by_cases ha : a.t < cut
    · rw [if_pos (by simpa using ha)] at hp
      exact ih htail p hp
    · rw [if_neg (by simpa using ha)] at hp
      rcases List.mem_cons.mp hp with rfl | hp2
      · exact not_lt.mp ha
      · exact le_trans (not_lt.mp ha) (hhead p hp2)

theorem pairwise_t_le_getLast :
    ∀ (l : List Point) (h : l ≠ []), List.Pairwise ptLe l →
      ∀ x ∈ l, x.t ≤ (l.getLast h).t
  | [], h, _, _, _ => absurd rfl h
  | [a], _, _, x, hx => by
    simp only [List.mem_singleton] at hx
    subst hx
    simp [List.getLast_singleton]
  | a :: b :: bs, _, hpw, x, hx => by
    obtain ⟨hhead, htail⟩ := List.pairwise_cons.mp hpw
    rw [List.getLast_cons (List.cons_ne_nil b bs)]
    rcases List.mem_cons.mp hx with rfl | hx2
    · exact hhead _ (List.getLast_mem (List.cons_ne_nil b bs))
    · exact pairwise_t_le_getLast (b :: bs) (List.cons_ne_nil b bs) htail x hx2

/-- C2 (corrected).  The claim as written fails: a fired compaction can
emit `maxPoints + 1` bins (the last point sits at the exact right edge of
the span and lands in an extra bin), and the 760-point scenario yields 501
bins, not 500.  Witness at `exCompactSmall`: 4 points, `maxPoints = 2`,
`4 > 2 · 1.5` so compaction fires, yet 3 bins come out. -/
theorem C2_compaction_counterexample :
    ptsSorted exCompactSmall.data ∧
    3 * exCompactSmall.maxPoints < 2 * exCompactSmall.data.length ∧
    exCompactSmall.maxPoints < (plotCompact exCompactSmall).data.length := by
  with_unfolding_all decide

/-- C2 (amended): for every sorted plot series, compaction preserves the
time ordering, and — whenever `maxPoints > 0` and the series spans a
positive time range — the result has at most `maxPoints + 1` points; in
the concrete case of 760 sorted points spanning t = [0, 10000] ms with
`maxPoints = 500` (which fires the `> maxPoints · 1.5` trigger),
compaction produces exactly 501 averaged bins, still sorted. -/
theorem C2_compaction_amended :
    (∀ st : PlotState, ptsSorted st.data → ptsSorted (plotCompact st).data) ∧
    (∀ st : PlotState, ptsSorted st.data → 0 < st.maxPoints →
        posSpanB st.data = true →
        (plotCompact st).data.length ≤ st.maxPoints + 1) ∧
    ex760.maxPoints = 500 ∧ ex760.data.length = 760 ∧
    ptsSorted ex760.data ∧
    3 * ex760.maxPoints < 2 * ex760.data.length ∧
    (plotCompact ex760).data.length = 501 ∧
    ptsSorted (plotCompact ex760).data := by
  refine ⟨fun st hs => plotCompact_sorted st hs,
    fun st hs hmax hspan => plotCompact_length st hs hmax hspan,
    rfl, ?_, ?_, ?_, ?_, ?_⟩
  · with_unfolding_all rfl
  · with_unfolding_all decide
  · with_unfolding_all decide
  · with_unfolding_all rfl
  · exact plotCompact_sorted ex760 (by with_unfolding_all decide)

/-- C2 witness: the amended bound and ordering evaluated at the concrete
4-point state (3 bins ≤ 2 + 1). -/
theorem C2_compaction_witness :
    ptsSorted (plotCompact exCompactSmall).data ∧
    (plotCompact exCompactSmall).data.length ≤ exCompactSmall.maxPoints + 1 :=
  ⟨C2_compaction_amended.1 exCompactSmall (by with_unfolding_all decide),
    C2_compaction_amended.2.1 exCompactSmall (by with_unfolding_all decide)
      (by with_unfolding_all decide) (by with_unfolding_all decide)⟩

/-- C3 (confirmed): after pruning a time-sorted series with the current
time `now`, every remaining point satisfies `t ≥ now - windowMs` (points
are removed from the head while older than the window), and the prune
stage runs on every accepted append: the update handler is exactly
append-then-compact-then-prune whenever a point is appended. -/
theorem C3_prune :
    (∀ (st : PlotState) (now : ℚ), ptsSorted st.data →
        ∀ p ∈ (pruneExpired st now).data, now - st.timeWindow ≤ p.t) ∧
    (∀ (st : PlotState) (w : PlotWidgetCfg) (d : PvData) (now : ℚ),
        (w.pv = none ∨ w.pv = st.pv) → d.value.isNaN = false →
        plotUpdate st w d now =
          (pruneExpired (compactIfNeeded
              { refreshCfg st w with
                  data := st.data ++ [⟨updateTs d.timestamp now, d.value⟩] }) now,
            none)) := by
  constructor
  · intro st now hs p hp
    rw [ptsSorted_iff_pairwise] at hs
    exact dropWhile_cutoff_le (now - st.timeWindow) st.data hs p hp
  · intro st w d now hpv hnan
    have hcond : ¬(w.pv ≠ none ∧ w.pv ≠ (refreshCfg st w).pv) := by
      rcases hpv with h | h
      · exact fun hc => hc.1 h
      · exact fun hc => hc.2 (by simpa [refreshCfg] using h)
    simp only [plotUpdate]
    rw [if_neg hcond, if_neg (by simp [hnan])]
    rfl

/-- C3 witness: pruning a concrete sorted two-point series at
`now = 3601500` with a one-hour window keeps only points newer than
1500 ms; the appended-update shape holds at a concrete call. -/
theorem C3_prune_witness :
    (∀ p ∈ (pruneExpired ⟨exHist, false, 500, 3600000, none⟩ 3601500).data,
        (3601500 : ℚ) - 3600000 ≤ p.t) ∧
    plotUpdate exEmptyPlot ⟨none, 500, 3600000⟩ ⟨some 1000, JF.fin 7⟩ 2000000 =
      (pruneExpired (compactIfNeeded
          { refreshCfg exEmptyPlot ⟨none, 500, 3600000⟩ with
              data := exEmptyPlot.data ++ [⟨updateTs (some 1000) 2000000, JF.fin 7⟩] })
        2000000, none) :=
  ⟨C3_prune.1 ⟨exHist, false, 500, 3600000, none⟩ 3601500
      (by with_unfolding_all decide),
    C3_prune.2 exEmptyPlot ⟨none, 500, 3600000⟩ ⟨some 1000, JF.fin 7⟩ 2000000
      (Or.inl rfl) (by with_unfolding_all decide)⟩

/-- C4 (confirmed): the source's backfill merge equals the spec's rule —
all of history followed by exactly the live points strictly later than
the last history point, live unchanged when history is empty — and merges
of time-ordered inputs are time-ordered. -/
theorem C4_merge :
    (∀ hist live : List Point, mergeHistory hist live = mergeSpec hist live) ∧
    (∀ live : List Point, mergeHistory [] live = live) ∧
    (∀ hist live : List Point, ptsSorted hist → ptsSorted live →
        ptsSorted (mergeHistory hist live)) := by
  refine ⟨?_, ?_, ?_⟩
  · intro hist live
    rcases hist with _ | ⟨h, hs⟩
    · simp [mergeHistory, mergeSpec]
    · simp only [mergeHistory, mergeSpec,
        List.getLast?_eq_getLast (h :: hs) (List.cons_ne_nil h hs)]
  · intro live
    simp [mergeHistory]
  · intro hist live hsh hsl
    rw [ptsSorted_iff_pairwise] at hsh hsl ⊢
    rw [mergeHistory]
    apply List.pairwise_append.mpr
    refine ⟨hsh, hsl.sublist (List.filter_sublist _), ?_⟩
    intro x hx y hy
    obtain ⟨hyl, hcond⟩ := List.mem_filter.mp hy
    rcases hhist : hist.getLast? with _ | q
    · rw [List.getLast?_eq_none_iff] at hhist
      subst hhist
      simp at hx
    · simp only [hhist] at hcond
      have hqy : q.t < y.t := of_decide_eq_true hcond
      have hne : hist ≠ [] := by
        intro h
        rw [h] at hhist
        simp at hhist
      have hq : hist.getLast hne = q := by
        have h2 := List.getLast?_eq_getLast hist hne
        rw [h2] at hhist
        exact Option.some_inj.mp hhist
      have hxle := pairwise_t_le_getLast hist hne hsh x hx
      rw [hq] at hxle
      exact le_trans hxle (le_of_lt hqy)

/-- C4 witness: the merge of the concrete sorted history (t = 1000, 2000)
with concrete live points (t = 1500, 2500) matches the spec rule and is
sorted — the overlapping live point is dropped, the later one kept. -/
theorem C4_merge_witness :
    mergeHistory exHist exLive = mergeSpec exHist exLive ∧
    mergeHistory [] exLive = exLive ∧
    ptsSorted (mergeHistory exHist exLive) :=
  ⟨C4_merge.1 exHist exLive, C4_merge.2.1 exLive,
    C4_merge.2.2 exHist exLive (by with_unfolding_all decide)
      (by with_unfolding_all decide)⟩


/-- C8 (corrected — counterexample).  The claim says every non-finite
value (NaN, +Infinity, -Infinity) is dropped, but the guard is only
`isNaN(val)`: an `Infinity` value passes it and is appended.  Concretely,
an update with value `Infinity` on an empty series appends one point. -/
theorem C8_nonfinite_counterexample :
    JF.inf.isNaN = false ∧ exSmallWin.data = [] ∧
    (plotUpdate exSmallWin ⟨none, 500, 2000⟩
        ⟨some 3, JF.inf⟩ 3000).1.data = [⟨3000, JF.inf⟩] :=
  ⟨rfl, rfl, by with_unfolding_all rfl⟩

/-- C8 (amended): `plot.update` silently drops exactly the points whose
value is NaN, leaving the series unchanged; any non-NaN value — finite or
±Infinity — is appended as one point at the tail (then compacted/pruned). -/
theorem C8_nonfinite_amended :
    (∀ (st : PlotState) (w : PlotWidgetCfg) (d : PvData) (now : ℚ),
        (w.pv = none ∨ w.pv = st.pv) → d.value.isNaN = true →
        (plotUpdate st w d now).1.data = st.data) ∧
    (∀ (st : PlotState) (w : PlotWidgetCfg) (d : PvData) (now : ℚ),
        (w.pv = none ∨ w.pv = st.pv) → d.value.isNaN = false →
        (plotUpdate st w d now).1.data =
          (pruneExpired (compactIfNeeded
              { refreshCfg st w with
                  data := st.data ++ [⟨updateTs d.timestamp now, d.value⟩] })
            now).data) := by
  constructor
  · intro st w d now hpv hnan
    have hcond : ¬(w.pv ≠ none ∧ w.pv ≠ (refreshCfg st w).pv) := by
      rcases hpv with h | h
      · exact fun hc => hc.1 h
      · exact fun hc => hc.2 (by simpa [refreshCfg] using h)
    simp only [plotUpdate]
    rw [if_neg hcond, if_pos (by simp [hnan])]
    rfl
  · intro st w d now hpv hnan
    have hcond : ¬(w.pv ≠ none ∧ w.pv ≠ (refreshCfg st w).pv) := by
      rcases hpv with h | h
      · exact fun hc => hc.1 h
      · exact fun hc => hc.2 (by simpa [refreshCfg] using h)
    simp only [plotUpdate]
    rw [if_neg hcond, if_neg (by simp [hnan])]
    rfl

/-- C8 witness: a NaN update leaves the empty series empty; a finite
update appends exactly one point. -/
theorem C8_nonfinite_witness :
    (plotUpdate exEmptyPlot ⟨none, 500, 3600000⟩
        ⟨some 1000, JF.nan⟩ 2000000).1.data = exEmptyPlot.data ∧
    (plotUpdate exEmptyPlot ⟨none, 500, 3600000⟩
        ⟨some 1000, JF.fin 5⟩ 2000000).1.data =
      (pruneExpired (compactIfNeeded
          { refreshCfg exEmptyPlot ⟨none, 500, 3600000⟩ with
              data := exEmptyPlot.data ++
                [⟨updateTs (some 1000) 2000000, JF.fin 5⟩] }) 2000000).data :=
  ⟨C8_nonfinite_amended.1 exEmptyPlot ⟨none, 500, 3600000⟩
      ⟨some 1000, JF.nan⟩ 2000000 (Or.inl rfl) rfl,
    C8_nonfinite_amended.2 exEmptyPlot ⟨none, 500, 3600000⟩
      ⟨some 1000, JF.fin 5⟩ 2000000 (Or.inl rfl) rfl⟩

/-- C10 (confirmed): a falsy `pvData.timestamp` (missing/null via `none`,
or zero) makes the appended point use the client clock `Date.now()` in
milliseconds — `(now_ms / 1000) * 1000 = now_ms` — and the point is still
appended (for an accepted value), not dropped and not recorded at t = 0. -/
theorem C10_timestamp_fallback :
    (∀ now : ℚ, updateTs none now = now) ∧
    (∀ now : ℚ, updateTs (some 0) now = now) ∧
    (∀ (st : PlotState) (w : PlotWidgetCfg) (d : PvData) (now : ℚ),
        (w.pv = none ∨ w.pv = st.pv) → d.value.isNaN = false →
        (d.timestamp = none ∨ d.timestamp = some 0) →
        (plotUpdate st w d now).1.data =
          (pruneExpired (compactIfNeeded
              { refreshCfg st w with data := st.data ++ [⟨now, d.value⟩] })
            now).data) := by
  refine ⟨?_, ?_, ?_⟩
  · intro now
    rw [updateTs]
    exact div_mul_cancel₀ _ (by norm_num)
  · intro now
    rw [updateTs]
    rw [if_pos rfl]
    exact div_mul_cancel₀ _ (by norm_num)
  · intro st w d now hpv hnan hts
    have hcond : ¬(w.pv ≠ none ∧ w.pv ≠ (refreshCfg st w).pv) := by
      rcases hpv with h | h
      · exact fun hc => hc.1 h
      · exact fun hc => hc.2 (by simpa [refreshCfg] using h)
    have htsval : updateTs d.timestamp now = now := by
      rcases hts with h | h
      · rw [h, updateTs]
        exact div_mul_cancel₀ _ (by norm_num)
      · rw [h, updateTs]
        rw [if_pos rfl]
        exact div_mul_cancel₀ _ (by norm_num)
    simp only [plotUpdate]
    rw [if_neg hcond, if_neg (by simp [hnan]), htsval]
    rfl

/-- C10 witness: an update with a missing timestamp at client time
2000000 ms is appended at t = 2000000. -/
theorem C10_timestamp_fallback_witness :
    updateTs none 2000000 = 2000000 ∧
    (plotUpdate exEmptyPlot ⟨none, 500, 3600000⟩
        ⟨none, JF.fin 5⟩ 2000000).1.data =
      (pruneExpired (compactIfNeeded
          { refreshCfg exEmptyPlot ⟨none, 500, 3600000⟩ with
              data := exEmptyPlot.data ++ [⟨2000000, JF.fin 5⟩] })
        2000000).data :=
  ⟨C10_timestamp_fallback.1 2000000,
    C10_timestamp_fallback.2.2 exEmptyPlot ⟨none, 500, 3600000⟩
      ⟨none, JF.fin 5⟩ 2000000 (Or.inl rfl) rfl (Or.inl rfl)⟩

/-- C7 (code bug).  The fetch-response handler of `_plotFetchHistory`
never compares the fetch's originating PV with the widget's current PV:
the result is the same whatever PV the fetch was issued for, and at the
concrete failing input — widget now on `PV:B` with an empty series, stale
response for `PV:A` resolving — the stale history is merged into the
series instead of being discarded. -/
theorem C7_stale_fetch :
    (∀ (st : PlotState) (pvA pvB : String) (resp : Option (List Point)),
        applyFetchResponse st pvA resp = applyFetchResponse st pvB resp) ∧
    exStalePlot.pv = some "PV:B" ∧ exStalePlot.data = [] ∧
    (applyFetchResponse exStalePlot "PV:A"
        (some [⟨1, JF.fin 5⟩])).data = [⟨1000, JF.fin 5⟩] ∧
    (applyFetchResponse exStalePlot "PV:A"
        (some [⟨1, JF.fin 5⟩])).historyLoaded = true := by
  refine ⟨fun st pvA pvB resp => rfl, rfl, rfl, ?_, rfl⟩
  with_unfolding_all decide

/-- C6 (code bug).  After an editor reconnect, `_syncPVSubscriptions`
diffs against the stale `this.subscribedPVs` carried over from the dead
connection, so with an unchanged widget set it sends no subscribe message
at all — not one containing the full current PV set. -/
theorem C6_editor_reconnect :
    currentPVs exEditorReconnect.widgets = {"MOTOR1:RBV"} ∧
    exEditorReconnect.subscribedPVs = {"MOTOR1:RBV"} ∧
    exEditorReconnect.wsOpen = true ∧
    (syncPVSubscriptions exEditorReconnect).2 = [] := by
  with_unfolding_all decide

theorem connStep_bounds (s : ViewerConn) (e : ConnEvent)
    (h1 : 1000 ≤ s.reconnectDelay) (h2 : s.reconnectDelay ≤ maxReconnectDelay) :
    1000 ≤ (connStep s e).reconnectDelay ∧
      (connStep s e).reconnectDelay ≤ maxReconnectDelay := by
  cases e with
  | wsClosed =>
    simp only [connStep, maxReconnectDelay] at h1 h2 ⊢
    split_ifs with hp
    · exact ⟨h1, h2⟩
    · exact ⟨le_min (by omega) (by omega), min_le_right _ _⟩
  | timerFired => exact ⟨h1, h2⟩
  | wsOpened =>
    simp only [connStep, maxReconnectDelay]
    omega

theorem connRun_bounds (evs : List ConnEvent) :
    1000 ≤ (connRun evs).reconnectDelay ∧
      (connRun evs).reconnectDelay ≤ maxReconnectDelay := by
  rw [connRun]
  have haux : ∀ (l : List ConnEvent) (s : ViewerConn),
      1000 ≤ s.reconnectDelay → s.reconnectDelay ≤ maxReconnectDelay →
      1000 ≤ (l.foldl connStep s).reconnectDelay ∧
        (l.foldl connStep s).reconnectDelay ≤ maxReconnectDelay := by
    intro l
    induction l with
    | nil =>
      intro s h1 h2
      exact ⟨h1, h2⟩
    | cons e l ih =>
      intro s h1 h2
      rw [List.foldl_cons]
      obtain ⟨g1, g2⟩ := connStep_bounds s e h1 h2
      exact ih _ g1 g2
  exact haux evs connInit (le_refl _) (by simp [connInit, maxReconnectDelay])

/-- C5 (confirmed): along any run of transport events from the viewer
session's initial state, `reconnectDelay` stays within [1000, 30000]; a
failure (close) never decreases it and — when no timer is already
pending — doubles it capped at 30000; a successful open resets it to
1000. -/
theorem C5_backoff :
    ∀ evs : List ConnEvent,
      1000 ≤ (connRun evs).reconnectDelay ∧
      (connRun evs).reconnectDelay ≤ maxReconnectDelay ∧
      (connRun evs).reconnectDelay ≤
        (connStep (connRun evs) ConnEvent.wsClosed).reconnectDelay ∧
      ((connRun evs).timerPending = false →
        (connStep (connRun evs) ConnEvent.wsClosed).reconnectDelay =
          min ((connRun evs).reconnectDelay * 2) maxReconnectDelay) ∧
      (connStep (connRun evs) ConnEvent.wsOpened).reconnectDelay = 1000 := by
  intro evs
  obtain ⟨h1, h2⟩ := connRun_bounds evs
  refine ⟨h1, h2, ?_, ?_, rfl⟩
  · simp only [connStep]
    split_ifs with hp
    · exact le_refl _
    · simp only [maxReconnectDelay] at h2 ⊢
      exact le_min (by omega) (by omega)
  · intro hpend
    simp only [connStep]
    rw [if_neg (by simp [hpend])]

/-- C5 witness: from the initial state (delay 1000, no pending timer), a
close doubles the delay to min(2000, 30000) and an open resets it. -/
theorem C5_backoff_witness :
    (connStep (connRun []) ConnEvent.wsClosed).reconnectDelay =
      min ((connRun []).reconnectDelay * 2) maxReconnectDelay ∧
    (connStep (connRun []) ConnEvent.wsOpened).reconnectDelay = 1000 :=
  ⟨(C5_backoff []).2.2.2.1 rfl, (C5_backoff []).2.2.2.2⟩

/-- C9 (confirmed): `handlePVUpdate` delivers an incoming update to
exactly the widgets whose interest predicate matches the update's PV —
membership in the renderer's `getSubscribePVs` list for composite
widgets, equality with the single resolved PV otherwise — leaving every
other widget untouched, and an update matching no widget leaves the whole
widget list unchanged (dropped silently). -/
theorem C9_demux :
    (∀ (ws : List VWidget) (pvName : String) (d : PvData),
        handlePVUpdate ws pvName d =
          ws.map (fun w =>
            if interestedIn w pvName then
              { w with lastDelivered := some (pvName, d) }
            else w)) ∧
    (∀ (ws : List VWidget) (pvName : String) (d : PvData),
        (∀ w ∈ ws, interestedIn w pvName = false) →
        handlePVUpdate ws pvName d = ws) := by
  constructor
  · intro ws pvName d
    induction ws with
    | nil => rfl
    | cons w rest ih =>
      rw [handlePVUpdate, List.map_cons, ih]
  · intro ws pvName d
    induction ws with
    | nil =>
      intro _
      rfl
    | cons w rest ih =>
      intro hnone
      rw [handlePVUpdate,
        if_neg (by simp [hnone w (List.mem_cons_self _ _)]),
        ih (fun x hx => hnone x (List.mem_cons_of_mem _ hx))]

/-- C9 witness: an update for an unmatched PV leaves a concrete
single-widget list unchanged, and the routing map shape holds there. -/
theorem C9_demux_witness :
    handlePVUpdate [⟨"w1", some "MOTOR1:RBV", none, none⟩] "OTHER:PV"
        ⟨some 1, JF.fin 0⟩ = [⟨"w1", some "MOTOR1:RBV", none, none⟩] :=
  C9_demux.2 [⟨"w1", some "MOTOR1:RBV", none, none⟩] "OTHER:PV"
    ⟨some 1, JF.fin 0⟩ (by with_unfolding_all decide)

theorem regRun_inv :
    ∀ (ops : List RegOp) (st : RegTrace),
      st.server = currentPVs st.widgets → st.sent = currentPVs st.widgets →
      (ops.foldl regStep st).server = currentPVs (ops.foldl regStep st).widgets ∧
        (ops.foldl regStep st).sent = currentPVs (ops.foldl regStep st).widgets := by
  intro ops
  induction ops with
  | nil =>
    intro st h1 h2
    exact ⟨h1, h2⟩
  | cons op ops ih =>
    intro st h1 h2
    rw [List.foldl_cons]
    apply ih
    · simp only [regStep]
      rw [h1, h2]
      rw [Finset.sdiff_sdiff_self_left, Finset.inter_comm, Finset.union_comm]
      exact Finset.sdiff_union_inter _ _
    · simp only [regStep]

/-- C1 (confirmed): for any sequence of widget register/unregister/PV-
change operations each followed by a sync, cumulatively applying the
computed unsubscribe/subscribe deltas keeps the server-side set equal to
the union of the currently registered widgets' PV names (which is also
the recorded sent set); and a sync emits no subscribe message when its
subscribe delta is empty, and no unsubscribe message when its unsubscribe
delta is empty. -/
theorem C1_registry :
    (∀ ops : List RegOp,
        (regRun ops).server = currentPVs (regRun ops).widgets ∧
        (regRun ops).sent = currentPVs (regRun ops).widgets) ∧
    (∀ s : ESession,
        (currentPVs s.widgets \ s.subscribedPVs = ∅ →
          ∀ pvs, WsMsg.subscribe pvs ∉ (syncPVSubscriptions s).2) ∧
        (s.subscribedPVs \ currentPVs s.widgets = ∅ →
          ∀ pvs, WsMsg.unsubscribe pvs ∉ (syncPVSubscriptions s).2)) := by
  constructor
  · intro ops
    exact regRun_inv ops ⟨[], ∅, ∅⟩ rfl rfl
  · intro s
    constructor
    · intro hsub pvs hmem
      simp only [syncPVSubscriptions] at hmem
      rcases List.mem_append.mp hmem with h | h
      · split_ifs at h
        · simp at h
        · simp at h
      · split_ifs at h with hc
        · exact absurd hsub hc.1
        · simp at h
    · intro hunsub pvs hmem
      simp only [syncPVSubscriptions] at hmem
      rcases List.mem_append.mp hmem with h | h
      · split_ifs at h with hc
        · exact absurd hunsub hc.1
        · simp at h
      · split_ifs at h
        · simp at h
        · simp at h

/-- C1 witness: one register+sync yields server set = {MOTOR1:RBV} =
current union, and a sync with empty deltas sends neither a subscribe
nor an unsubscribe message. -/
theorem C1_registry_witness :
    (regRun [RegOp.register "w1" (some "MOTOR1:RBV")]).server =
      currentPVs (regRun [RegOp.register "w1" (some "MOTOR1:RBV")]).widgets ∧
    WsMsg.subscribe {"MOTOR1:RBV"} ∉ (syncPVSubscriptions exEditorReconnect).2 ∧
    WsMsg.unsubscribe {"MOTOR1:RBV"} ∉ (syncPVSubscriptions exEditorReconnect).2 :=
  ⟨(C1_registry.1 [RegOp.register "w1" (some "MOTOR1:RBV")]).1,
    (C1_registry.2 exEditorReconnect).1 (by with_unfolding_all decide)
      {"MOTOR1:RBV"},
    (C1_registry.2 exEditorReconnect).2 (by with_unfolding_all decide)
      {"MOTOR1:RBV"}⟩

end EIWYG
